import Mathlib

/-!
Shallow embedding of the ASCEND linear-actuator control program
(`actuator.py`, with `modbus_crc` also duplicated in `test.py`) and proofs
about it.  Byte strings are `List Nat` whose elements are intended to lie
below 256; Python ints are `Int`; Python `None` is `Option.none`.
-/

/-- Big-endian interpretation of a byte list as an unsigned natural,
embedding Python `int.from_bytes(bs, byteorder='big')`. -/
def natFromBytesBE (bs : List Nat) : Nat :=
  bs.foldl (fun a b => 256 * a + b) 0

/-- Big-endian serialization of `v` into exactly `k` bytes (the low
`8*k` bits of `v`), the byte-building core of Python
`int.to_bytes(k, byteorder='big')`. -/
def natToBytesBE : Nat → Nat → List Nat
  | 0, _ => []
  | k + 1, v => natToBytesBE k (v / 256) ++ [v % 256]

/-- Two's-complement reading of a byte list, embedding Python
`int.from_bytes(bs, byteorder='big', signed=True)`. -/
def intFromBytesBEsigned (bs : List Nat) : Int :=
  if natFromBytesBE bs < 2 ^ (8 * bs.length - 1) then (natFromBytesBE bs : Int)
  else (natFromBytesBE bs : Int) - 2 ^ (8 * bs.length)

/-- Embedding of Python `n.to_bytes(k, byteorder='big', signed=True)`:
`none` models the `OverflowError` raised when `n` does not fit in `k`
signed bytes. -/
def intToBytesBEsigned (n : Int) (k : Nat) : Option (List Nat) :=
  if -(2 ^ (8 * k - 1)) ≤ n ∧ n < 2 ^ (8 * k - 1) then
    some (natToBytesBE k (n % 2 ^ (8 * k)).toNat)
  else
    none

/-- One shift round of the CRC inner loop (`actuator.py` lines 9-14):
shift right one bit, and XOR with 0xA001 when the low bit was set. -/
def crcRound (c : Nat) : Nat :=
  if c % 2 = 1 then (c / 2) ^^^ 0xA001 else c / 2

/-- Absorb one input byte into the accumulator: XOR it in, then run the
inner loop eight times (`actuator.py` lines 8-14). -/
def crcUpdate (c b : Nat) : Nat :=
  crcRound^[8] (c ^^^ b)

/-- Embedding of `modbus_crc` (`actuator.py` lines 5-15, identical in
`test.py`): fold the update over the data starting from 0xFFFF and
serialize the 16-bit result little-endian, as Python
`crc.to_bytes(2, byteorder='little')` does (the accumulator stays below
2^16 for byte inputs, so the `% 256` on the high byte never truncates). -/
def modbus_crc (data : List Nat) : List Nat :=
  let crc := data.foldl crcUpdate 0xFFFF
  [crc % 256, crc / 256 % 256]

/-- Embedding of `build_position_command` (`actuator.py` lines 17-21):
`none` models the `OverflowError` raised by `to_bytes` when the target
does not fit in a signed 32-bit integer. -/
def build_position_command (position_um : Int) : Option (List Nat) :=
  (intToBytesBEsigned position_um 4).map fun position_bytes =>
    let request := [0x01, 0x64, 0x1E] ++ position_bytes
    request ++ modbus_crc request

/-- The decoded telemetry record: the fields `parse_motor_response_line`
extracts and prints (`actuator.py` lines 32-40). -/
structure Telemetry where
  pos : Int
  force : Int
  power : Nat
  temp : Nat
  voltage : Nat
  errors : Nat
deriving DecidableEq, Repr

/-- The field-extraction block of `parse_motor_response_line`
(`actuator.py` lines 32-37), for a 19-byte response. -/
def parseFields (response : List Nat) : Telemetry where
  pos := intFromBytesBEsigned ((response.drop 2).take 4)
  force := intFromBytesBEsigned ((response.drop 6).take 4)
  power := natFromBytesBE ((response.drop 10).take 2)
  temp := response.getD 12 0
  voltage := natFromBytesBE ((response.drop 13).take 2)
  errors := natFromBytesBE ((response.drop 15).take 2)

/-- The three observable outcomes of `parse_motor_response_line`: the two
early-return branches are distinguished by the message they print
("Invalid response length or no response received." versus
"Unexpected function code"), the third returns the decoded fields. -/
inductive DecodeResult where
  | badLength
  | badFunction (code : Nat)
  | ok (t : Telemetry)
deriving DecidableEq, Repr

/-- Branch structure of `parse_motor_response_line` (`actuator.py` lines
23-41): reject `None` or a length other than 19, then reject a function
code other than 0x64, otherwise decode. -/
def decode_response (response : Option (List Nat)) : DecodeResult :=
  match response with
  | none => .badLength
  | some bs =>
    if bs.length ≠ 19 then .badLength
    else if bs.getD 1 0 ≠ 0x64 then .badFunction (bs.getD 1 0)
    else .ok (parseFields bs)

/-- Python return value of `parse_motor_response_line`: the decoded
position on success, `None` on either rejection branch
(`actuator.py` lines 23-41). -/
def parse_motor_response_line (response : Option (List Nat)) : Option Int :=
  match decode_response response with
  | .ok t => some t.pos
  | _ => none

-- Basic lemmas about the byte conversions.

theorem natFromBytesBE_append (l : List Nat) (b : Nat) :
    natFromBytesBE (l ++ [b]) = 256 * natFromBytesBE l + b := by
  simp [natFromBytesBE, List.foldl_append]

theorem natToBytesBE_length (k v : Nat) : (natToBytesBE k v).length = k := by
  induction k generalizing v with
  | zero => simp [natToBytesBE]
  | succ k ih => simp [natToBytesBE, ih]

theorem natFromBytesBE_natToBytesBE (k v : Nat) :
    natFromBytesBE (natToBytesBE k v) = v % 256 ^ k := by
  induction k generalizing v with
  | zero => simp [natToBytesBE, natFromBytesBE, Nat.mod_one]
  | succ k ih =>
    rw [natToBytesBE, natFromBytesBE_append, ih]
    have h : (256 : Nat) ^ (k + 1) = 256 * 256 ^ k := by ring
    rw [h, Nat.mod_mul]
    omega

theorem natToBytesBE_lt (k v : Nat) : ∀ b ∈ natToBytesBE k v, b < 256 := by
  induction k generalizing v with
  | zero => simp [natToBytesBE]
  | succ k ih =>
    intro b hb
    rw [natToBytesBE] at hb
    rcases List.mem_append.mp hb with h | h
    · exact ih _ b h
    · simp at h; omega

-- Round-trip of the 4-byte signed big-endian conversion.

theorem intToBytesBEsigned_four (n : Int) (h1 : -(2 ^ 31) ≤ n) (h2 : n < 2 ^ 31) :
    intToBytesBEsigned n 4 = some (natToBytesBE 4 (n % 2 ^ 32).toNat) := by
  have hc : -(2 ^ (8 * 4 - 1) : Int) ≤ n ∧ n < 2 ^ (8 * 4 - 1) := by
    norm_num
    constructor <;> omega
  rw [intToBytesBEsigned, if_pos hc]

theorem intFromBytesBEsigned_four (n : Int) (h1 : -(2 ^ 31) ≤ n) (h2 : n < 2 ^ 31) :
    intFromBytesBEsigned (natToBytesBE 4 (n % 2 ^ 32).toNat) = n := by
  have hlen : (natToBytesBE 4 (n % 2 ^ 32).toNat).length = 4 := natToBytesBE_length 4 _
  have hval : natFromBytesBE (natToBytesBE 4 (n % 2 ^ 32).toNat) =
      (n % 2 ^ 32).toNat % 256 ^ 4 := natFromBytesBE_natToBytesBE 4 _
  rw [intFromBytesBEsigned, hlen, hval]
  norm_num
  split <;> omega

/-- Spec-side accessor: the position field of a 9-byte move frame, bytes
3..6 read back as a big-endian signed 32-bit integer. -/
def frame_target (f : List Nat) : Int :=
  intFromBytesBEsigned ((f.drop 3).take 4)

theorem modbus_crc_length (data : List Nat) : (modbus_crc data).length = 2 := by
  rfl

/-- Anatomy of a successfully built move frame: header, recoverable
position field, trailing CRC, nine bytes in all. -/
theorem build_position_command_some (p : Int) (h1 : -(2 ^ 31) ≤ p) (h2 : p < 2 ^ 31) :
    ∃ f, build_position_command p = some f ∧ f.length = 9 ∧
      f.take 3 = [0x01, 0x64, 0x1E] ∧
      (f.drop 3).take 4 = natToBytesBE 4 (p % 2 ^ 32).toNat ∧ frame_target f = p ∧
      f.drop 7 = modbus_crc (f.take 7) := by
  have hb := intToBytesBEsigned_four p h1 h2
  set pb := natToBytesBE 4 (p % 2 ^ 32).toNat with hpb
  have hlen : pb.length = 4 := natToBytesBE_length 4 _
  have h3 : ([0x01, 0x64, 0x1E] : List Nat).length = 3 := rfl
  have hmid : ((([0x01, 0x64, 0x1E] ++ pb) ++
      modbus_crc ([0x01, 0x64, 0x1E] ++ pb)).drop 3).take 4 = pb := by
    rw [List.append_assoc, List.drop_left' h3, List.take_left' hlen]
  refine ⟨([0x01, 0x64, 0x1E] ++ pb) ++ modbus_crc ([0x01, 0x64, 0x1E] ++ pb),
    ?_, ?_, ?_, hmid, ?_, ?_⟩
  · rw [build_position_command, hb, Option.map_some']
  · simp [modbus_crc, hlen]
  · rw [List.append_assoc, List.take_left']
    simp
  · rw [frame_target, hmid]
    exact intFromBytesBEsigned_four p h1 h2
  · have h7 : ([0x01, 0x64, 0x1E] ++ pb).length = 7 := by simp [hlen]
    rw [List.drop_left' h7, List.take_left' h7]

-- Operator console input (`actuator.py` lines 84-109).

/-- Python `str.strip()` on a character list: drop surrounding whitespace. -/
def pyStripChars (cs : List Char) : List Char :=
  ((cs.dropWhile Char.isWhitespace).reverse.dropWhile Char.isWhitespace).reverse

/-- Embedding of `input(...).strip().lower()` (`actuator.py` line 86). -/
def pyNormalize (s : String) : List Char :=
  (pyStripChars s.toList).map Char.toLower

/-- Value of a digit string, most significant digit first. -/
def digitsVal (l : List Char) : Nat :=
  l.foldl (fun a c => 10 * a + (c.toNat - 48)) 0

def allDigits (l : List Char) : Bool := l.all Char.isDigit

/-- Split at the first occurrence of `x`: the part before it, and the part
after it when present. -/
def splitAtChar (x : Char) : List Char → List Char × Option (List Char)
  | [] => ([], none)
  | c :: rest =>
    if c = x then ([], some rest)
    else
      let (m, e) := splitAtChar x rest
      (c :: m, e)

/-- Leading sign of a numeric literal: `true` for a minus. -/
def splitSign : List Char → Bool × List Char
  | '-' :: rest => (true, rest)
  | '+' :: rest => (false, rest)
  | cs => (false, cs)

/-- The three ways `int(float(text))` can come out in Python. -/
inductive PyNumResult where
  | ok (n : Int)
  | valueError
  | overflowError
deriving DecidableEq, Repr

/-- Embedding of `int(float(user_input))` (`actuator.py` line 106):
`ok` holds a finite value truncated toward zero; `valueError` covers both
a text `float` rejects and a NaN value, since `int` raises `ValueError`
on NaN — exactly the exceptions line 107 catches; `overflowError` marks a
text parsing to an infinite float, whose conversion by `int` raises
`OverflowError`, which line 107 does not catch.  Finite decimal literals
are evaluated exactly and truncated; IEEE-754 rounding of extreme finite
literals and digit-group underscores are not modelled, and no proof below
touches such inputs. -/
def pyIntFloat (cs : List Char) : PyNumResult :=
  let (neg, body) := splitSign cs
  if body = ['i', 'n', 'f'] ∨ body = ['i', 'n', 'f', 'i', 'n', 'i', 't', 'y'] then
    .overflowError
  else if body = ['n', 'a', 'n'] then
    .valueError
  else
    let (mant, expPart) := splitAtChar 'e' body
    let (ip, fpOpt) := splitAtChar '.' mant
    let fp := fpOpt.getD []
    let expVal : Option Int :=
      match expPart with
      | none => some 0
      | some es =>
        let (eneg, ed) := splitSign es
        if !ed.isEmpty && allDigits ed then
          some (if eneg then -(digitsVal ed : Int) else (digitsVal ed : Int))
        else none
    if allDigits ip && allDigits fp && (!ip.isEmpty || !fp.isEmpty) then
      match expVal with
      | none => .valueError
      | some ex =>
        let m := digitsVal (ip ++ fp)
        let scale := ex - fp.length
        let mag : Nat := if 0 ≤ scale then m * 10 ^ scale.toNat else m / 10 ^ (-scale).toNat
        .ok (if neg then -(mag : Int) else (mag : Int))
    else .valueError

/-- The observable effect of one iteration of the operator input loop. -/
inductive LoopEffect where
  | quit
  | zeroSet
  | zeroFailed
  | reprompt
  | moveStream (frame : List Nat)
  | uncaughtOverflow
  | uncaughtTypeError
deriving DecidableEq, Repr

/-- The probe frame the zero branch writes before its read
(`actuator.py` line 94): `build_position_command(0)`. -/
def zero_probe : Option (List Nat) := build_position_command 0

/-- One iteration of the operator input loop (`actuator.py` lines 85-113)
as a function of the mutable `zero_offset_um` (an `Int`, or `none` for
Python `None`), the operator input line, and the bytes the 19-byte read
of the zero branch returns.  Yields the new `zero_offset_um` and the
iteration's effect: `quit` and the two zero outcomes mirror lines 88-103,
`reprompt` is the caught `ValueError` of lines 105-109, `moveStream`
enters the streaming loop with the frame built for
`zero_offset_um + position_um` (lines 111-112), `uncaughtOverflow` and
`uncaughtTypeError` mark exceptions no handler catches (`OverflowError`
from `int(float(..))` or `to_bytes`, `TypeError` from `None + int`). -/
def sessionStep (zero_offset_um : Option Int) (userInput : String)
    (zeroResp : List Nat) : Option Int × LoopEffect :=
  let t := pyNormalize userInput
  if t = ['q'] then (zero_offset_um, .quit)
  else if t = ['z'] then
    if zeroResp.length = 19 then (parse_motor_response_line (some zeroResp), .zeroSet)
    else (zero_offset_um, .zeroFailed)
  else
    match pyIntFloat t with
    | .valueError => (zero_offset_um, .reprompt)
    | .overflowError => (zero_offset_um, .uncaughtOverflow)
    | .ok position_um =>
      match zero_offset_um with
      | none => (zero_offset_um, .uncaughtTypeError)
      | some z =>
        match build_position_command (z + position_um) with
        | none => (zero_offset_um, .uncaughtOverflow)
        | some frame => (zero_offset_um, .moveStream frame)

-- The streaming control loop (`actuator.py` lines 115-122).

/-- One observation of the environment during a streaming iteration: the
bytes the 19-byte read returns and the `in_waiting` count the loop checks
afterwards. -/
structure StreamObs where
  resp : List Nat
  inWaiting : Nat
deriving DecidableEq, Repr

/-- Whether the streaming loop's only exit test fires after an iteration
(`actuator.py` lines 121-122): `in_waiting > 0`. -/
def streamBreaks (o : StreamObs) : Bool := decide (0 < o.inWaiting)

/-- Number of send/read iterations the streaming loop performs when the
environment supplies the observations `env` in order: it stops with the
first observation whose `in_waiting` is positive, and consumes all of
`env`, still running, otherwise. -/
def runStream : List StreamObs → Nat
  | [] => 0
  | o :: rest => if streamBreaks o then 1 else 1 + runStream rest

/-- Whether the streaming loop exits within the horizon `env`. -/
def streamExits (env : List StreamObs) : Bool := env.any streamBreaks

-- Spec-side CRC-16 reference (§4.1), for comparison with `modbus_crc`.

/-- One CRC round as the spec words it: if the low bit is set, shift
right and XOR with 0xA001; otherwise shift right only. -/
def crc16SpecRound (c : Nat) : Nat :=
  if c.testBit 0 then (c >>> 1) ^^^ 0xA001 else c >>> 1

/-- Per-byte spec step: XOR the byte into the low byte of the
accumulator, then perform 8 rounds. -/
def crc16SpecUpdate (c b : Nat) : Nat := crc16SpecRound^[8] (c ^^^ b)

/-- `CRC16Engine.compute` as §4.1 words it: accumulator initialized to
0xFFFF, folded over the input bytes, serialized little-endian. -/
def crc16_spec (data : List Nat) : List Nat :=
  let crc := data.foldl crc16SpecUpdate 0xFFFF
  [crc &&& 0xFF, (crc >>> 8) &&& 0xFF]

theorem crcRound_eq_spec : crcRound = crc16SpecRound := by
  funext c
  rcases Nat.mod_two_eq_zero_or_one c with h | h <;>
    simp [crcRound, crc16SpecRound, Nat.testBit_zero, h,
      Nat.shiftRight_eq_div_pow, pow_one]

/-- C4: `modbus_crc` implements exactly the Modbus CRC-16 reference the
spec describes — accumulator initialized to 0xFFFF, each byte XORed into
the low byte, eight conditional shift-XOR rounds with polynomial 0xA001,
16-bit result serialized little-endian — and, deterministically,
`modbus_crc [0x01, 0x64, 0x11]` is the fixed value `[0xCA, 0xCC]`. -/
theorem C4_crc_matches_reference :
    (∀ data : List Nat, modbus_crc data = crc16_spec data) ∧
      modbus_crc [0x01, 0x64, 0x11] = [0xCA, 0xCC] := by
  constructor
  · intro data
    have hu : crcUpdate = crc16SpecUpdate := by
      funext c b
      rw [crcUpdate, crc16SpecUpdate, crcRound_eq_spec]
    simp only [modbus_crc, crc16_spec, hu]
    set v := data.foldl crc16SpecUpdate 0xFFFF with hv
    have h1 : v &&& 0xFF = v % 256 := by
      have h := Nat.and_pow_two_sub_one_eq_mod v 8
      norm_num at h
      exact h
    have h2 : v >>> 8 &&& 0xFF = v / 256 % 256 := by
      have hb : v >>> 8 = v / 256 := by
        rw [Nat.shiftRight_eq_div_pow]
      have h := Nat.and_pow_two_sub_one_eq_mod (v >>> 8) 8
      norm_num at h
      rw [h, hb]
    rw [h1, h2]
  · decide

/-- C5: the response decoder is total and typed: it yields BadLength
exactly when the input length differs from 19 (also for an absent
response), BadFunction exactly when the length is 19 but byte 1 is not
0x64, and decoded telemetry exactly otherwise. -/
theorem C5_decode_total_typed (bs : List Nat) :
    (decode_response (some bs) = .badLength ↔ bs.length ≠ 19) ∧
      ((∃ c, decode_response (some bs) = .badFunction c) ↔
        bs.length = 19 ∧ bs.getD 1 0 ≠ 0x64) ∧
      ((∃ t, decode_response (some bs) = .ok t) ↔
        bs.length = 19 ∧ bs.getD 1 0 = 0x64) ∧
      decode_response none = .badLength := by
  have hd : decode_response (some bs) =
      if bs.length ≠ 19 then .badLength
      else if bs.getD 1 0 ≠ 0x64 then .badFunction (bs.getD 1 0)
      else .ok (parseFields bs) := rfl
  by_cases h1 : bs.length = 19
  · have h1l : 1 < bs.length := by omega
    have hge : bs.getD 1 0 = bs[1] := List.getD_eq_getElem (l := bs) (d := 0) h1l
    by_cases h2 : bs.getD 1 0 = 0x64
    · have hA : decode_response (some bs) = .ok (parseFields bs) := by
        rw [hd, if_neg (not_not_intro h1), if_neg (not_not_intro h2)]
      rw [hge] at h2
      refine ⟨?_, ?_, ?_, rfl⟩ <;> simp [hA, h1, h2]
    · have hA : decode_response (some bs) = .badFunction (bs.getD 1 0) := by
        rw [hd, if_neg (not_not_intro h1), if_pos h2]
      rw [hge] at h2
      refine ⟨?_, ?_, ?_, rfl⟩ <;> simp [hA, hge, h1, h2]
  · have hA : decode_response (some bs) = .badLength := by
      rw [hd, if_pos h1]
    refine ⟨?_, ?_, ?_, rfl⟩ <;> simp [hA, h1]

-- C7: field extraction at the §6 offsets.

theorem drop_peel {α : Type} (L R l : List α) (n k : Nat)
    (hd : L.drop n = l ++ R) (hl : l.length = k) : L.drop (n + k) = R := by
  have h := congrArg (List.drop k) hd
  rw [List.drop_drop, List.drop_left' hl] at h
  exact h

/-- Spec-side §6 response-frame builder: device address, function code
0x64, signed big-endian 32-bit position and force, unsigned big-endian
16-bit power, a temperature byte, unsigned big-endian 16-bit voltage and
error bitmap, then the two trailing CRC bytes. -/
def mkResponseFrame (addr : Nat) (pos force : Int) (power temp voltage errors : Nat)
    (crc : List Nat) : List Nat :=
  [addr, 0x64] ++ natToBytesBE 4 (pos % 2 ^ 32).toNat ++
    natToBytesBE 4 (force % 2 ^ 32).toNat ++ natToBytesBE 2 power ++ [temp] ++
    natToBytesBE 2 voltage ++ natToBytesBE 2 errors ++ crc

/-- C7: decoding a frame laid out per §6 recovers every field with the
stated signedness and width — signed 32-bit big-endian position at bytes
2..5 and force at 6..9, unsigned big-endian 16-bit power, voltage and
errors at 10, 13 and 15, the unsigned temperature byte at 12. -/
theorem C7_field_extraction (addr : Nat) (pos force : Int)
    (power temp voltage errors : Nat) (crc : List Nat)
    (hp1 : -(2 ^ 31) ≤ pos) (hp2 : pos < 2 ^ 31)
    (hf1 : -(2 ^ 31) ≤ force) (hf2 : force < 2 ^ 31)
    (hpw : power < 2 ^ 16) (ht : temp < 2 ^ 8) (hv : voltage < 2 ^ 16)
    (he : errors < 2 ^ 16) (hcrc : crc.length = 2) :
    decode_response (some (mkResponseFrame addr pos force power temp voltage errors crc)) =
      .ok ⟨pos, force, power, temp, voltage, errors⟩ := by
  set pb := natToBytesBE 4 (pos % 2 ^ 32).toNat with hpbdef
  set fb := natToBytesBE 4 (force % 2 ^ 32).toNat with hfbdef
  set pw := natToBytesBE 2 power with hpwdef
  set vb := natToBytesBE 2 voltage with hvbdef
  set eb := natToBytesBE 2 errors with hebdef
  have hpb : pb.length = 4 := natToBytesBE_length 4 _
  have hfb : fb.length = 4 := natToBytesBE_length 4 _
  have hpwl : pw.length = 2 := natToBytesBE_length 2 _
  have hvbl : vb.length = 2 := natToBytesBE_length 2 _
  have hebl : eb.length = 2 := natToBytesBE_length 2 _
  set F := mkResponseFrame addr pos force power temp voltage errors crc with hFdef
  have hF : F = [addr, 0x64] ++ (pb ++ (fb ++ (pw ++ ([temp] ++ (vb ++ (eb ++ crc)))))) := rfl
  have hlen : F.length = 19 := by
    rw [hF]
    simp [hpb, hfb, hpwl, hvbl, hebl, hcrc]
  have d2 : F.drop 2 = pb ++ (fb ++ (pw ++ ([temp] ++ (vb ++ (eb ++ crc))))) := by
    rw [hF, List.drop_left' (show ([addr, 0x64] : List Nat).length = 2 from rfl)]
  have d6 : F.drop 6 = fb ++ (pw ++ ([temp] ++ (vb ++ (eb ++ crc)))) := by
    have h := drop_peel F _ pb 2 4 d2 hpb
    norm_num at h
    exact h
  have d10 : F.drop 10 = pw ++ ([temp] ++ (vb ++ (eb ++ crc))) := by
    have h := drop_peel F _ fb 6 4 d6 hfb
    norm_num at h
    exact h
  have d12 : F.drop 12 = [temp] ++ (vb ++ (eb ++ crc)) := by
    have h := drop_peel F _ pw 10 2 d10 hpwl
    norm_num at h
    exact h
  have d13 : F.drop 13 = vb ++ (eb ++ crc) := by
    have h := drop_peel F _ ([temp]) 12 1 d12 rfl
    norm_num at h
    exact h
  have d15 : F.drop 15 = eb ++ crc := by
    have h := drop_peel F _ vb 13 2 d13 hvbl
    norm_num at h
    exact h
  have hfc : F.getD 1 0 = 0x64 := by
    rw [hF]
    rfl
  have hA : decode_response (some F) =
      if F.length ≠ 19 then .badLength
      else if F.getD 1 0 ≠ 0x64 then .badFunction (F.getD 1 0)
      else .ok (parseFields F) := rfl
  rw [hA, if_neg (not_not_intro hlen), if_neg (not_not_intro hfc)]
  have e1 : (256 : Nat) ^ 2 = 2 ^ 16 := by norm_num
  refine congrArg DecodeResult.ok ?_
  rw [parseFields]
  rw [Telemetry.mk.injEq]
  refine ⟨?_, ?_, ?_, ?_, ?_, ?_⟩
  · rw [d2, List.take_left' hpb, hpbdef]
    exact intFromBytesBEsigned_four pos hp1 hp2
  · rw [d6, List.take_left' hfb, hfbdef]
    exact intFromBytesBEsigned_four force hf1 hf2
  · rw [d10, List.take_left' hpwl, hpwdef, natFromBytesBE_natToBytesBE, e1]
    omega
  · rw [List.getD_eq_getElem?_getD, show (12 : Nat) = 12 + 0 from rfl, ← List.getElem?_drop,
      d12]
    rfl
  · rw [d13, List.take_left' hvbl, hvbdef, natFromBytesBE_natToBytesBE, e1]
    omega
  · rw [d15, List.take_left' hebl, hebdef, natFromBytesBE_natToBytesBE, e1]
    omega

/-- C8: for every signed 32-bit `position_um`, `build_position_command`
yields the 9-byte frame `[0x01, 0x64, 0x1E]`, then the big-endian signed
4-byte encoding of `position_um`, then the 2-byte little-endian CRC of
the first seven bytes, and reading the 4-byte position field back as a
big-endian signed integer recovers `position_um` exactly. -/
theorem C8_encode_move_roundtrip (position_um : Int)
    (h1 : -(2 ^ 31) ≤ position_um) (h2 : position_um < 2 ^ 31) :
    ∃ f, build_position_command position_um = some f ∧ f.length = 9 ∧
      f.take 3 = [0x01, 0x64, 0x1E] ∧
      (f.drop 3).take 4 = natToBytesBE 4 (position_um % 2 ^ 32).toNat ∧
      frame_target f = position_um ∧ f.drop 7 = modbus_crc (f.take 7) :=
  build_position_command_some position_um h1 h2

/-- Witness for C8 at the extreme -2000000 of the spec: the hypotheses
hold there and the round trip recovers -2000000. -/
theorem C8_encode_move_roundtrip_witness :
    (-(2 ^ 31) ≤ (-2000000 : Int) ∧ (-2000000 : Int) < 2 ^ 31) ∧
      ∃ f, build_position_command (-2000000) = some f ∧ f.length = 9 ∧
        f.take 3 = [0x01, 0x64, 0x1E] ∧
        (f.drop 3).take 4 = natToBytesBE 4 ((-2000000 : Int) % 2 ^ 32).toNat ∧
        frame_target f = -2000000 ∧ f.drop 7 = modbus_crc (f.take 7) :=
  ⟨by norm_num, C8_encode_move_roundtrip (-2000000) (by norm_num) (by norm_num)⟩

/-- C10: `build_position_command` fails (models the `OverflowError` from
`to_bytes(4, signed=True)`) exactly when its argument lies outside the
signed 32-bit range; under the int32 precondition the error branch is
unreachable and a 9-byte frame is always produced. -/
theorem C10_encode_move_int32_total (p : Int) :
    (build_position_command p = none ↔ (p < -(2 ^ 31) ∨ 2 ^ 31 ≤ p)) ∧
      (-(2 ^ 31) ≤ p → p < 2 ^ 31 →
        ∃ f, build_position_command p = some f ∧ f.length = 9) := by
  constructor
  · have hm : build_position_command p = none ↔ intToBytesBEsigned p 4 = none := by
      rw [build_position_command, Option.map_eq_none']
    rw [hm, intToBytesBEsigned]
    by_cases hc : -(2 ^ (8 * 4 - 1) : Int) ≤ p ∧ p < 2 ^ (8 * 4 - 1)
    · rw [if_pos hc]
      refine iff_of_false (Option.some_ne_none _) ?_
      norm_num at hc ⊢
      omega
    · rw [if_neg hc]
      refine iff_of_true rfl ?_
      norm_num at hc ⊢
      omega
  · intro h1 h2
    obtain ⟨f, hf, hlen, -, -, -, -⟩ := build_position_command_some p h1 h2
    exact ⟨f, hf, hlen⟩

/-- Witness for C10: the conclusion holds concretely on both sides of the
boundary — at 2^31 (out of range, raising branch) via the first
conjunct, and at 5 (in range) via the second. -/
theorem C10_encode_move_int32_total_witness :
    (build_position_command (2 ^ 31) = none ∧
      ((2 ^ 31 : Int) < -(2 ^ 31) ∨ (2 ^ 31 : Int) ≤ 2 ^ 31)) ∧
      ((-(2 ^ 31) ≤ (5 : Int) ∧ (5 : Int) < 2 ^ 31) ∧
        ∃ f, build_position_command 5 = some f ∧ f.length = 9) :=
  ⟨⟨(C10_encode_move_int32_total (2 ^ 31)).1.mpr (by norm_num), by norm_num⟩,
    ⟨by norm_num, (C10_encode_move_int32_total 5).2 (by norm_num) (by norm_num)⟩⟩

-- C1, C2: the zero branch.

/-- A 19-byte response with the wrong function code 0x63: correct length,
so the zero branch's only guard (`len(response) == 19`) passes, but the
parse fails. -/
def badFunctionResp : List Nat := 0x01 :: 0x63 :: List.replicate 17 0

set_option maxRecDepth 10000 in
/-- C1: evaluating the zero branch at a 19-byte response whose function
code is not 0x64: the failed parse returns `None` and the code assigns it
to `zero_offset_um` (`actuator.py` line 99), instead of retaining the
previous value 0 as the spec requires. -/
theorem C1_zero_offset_clobbered_on_bad_function :
    sessionStep (some 0) "z" badFunctionResp = (none, .zeroSet) ∧
      (none : Option Int) ≠ some 0 := by
  decide

set_option maxRecDepth 10000 in
/-- C2 as claimed: in the zero branch, for every value of the current
absolute position, the probe frame's encoded target equals that position.
Refuted: the probe is always `build_position_command(0)` (`actuator.py`
line 94), whose position field decodes to 0, so at a current absolute
position of 500 the claimed property fails. -/
theorem C2_zero_probe_counterexample :
    ¬ ∀ currentPos : Int, ∀ f, zero_probe = some f → frame_target f = currentPos := by
  intro h
  have hf : zero_probe = some [0x01, 0x64, 0x1E, 0, 0, 0, 0, 0xAB, 0xE6] := by decide
  have h500 := h 500 _ hf
  have h0 : frame_target [0x01, 0x64, 0x1E, 0, 0, 0, 0, 0xAB, 0xE6] = 0 := by decide
  omega

/-- C2 amended: the zero operation's probe frame is
`build_position_command 0` independently of any session state — a
well-formed 9-byte move frame whose encoded target is the constant 0,
not the current absolute position. -/
theorem C2_zero_probe_targets_constant_zero :
    ∃ f, zero_probe = some f ∧ f.length = 9 ∧ f.take 3 = [0x01, 0x64, 0x1E] ∧
      frame_target f = 0 := by
  obtain ⟨f, hf, hlen, hhdr, -, hft, -⟩ :=
    build_position_command_some 0 (by norm_num) (by norm_num)
  exact ⟨f, hf, hlen, hhdr, hft⟩

-- C3: the streaming loop's exit behavior.

/-- C3 as claimed: the streaming loop never exits, for every sequence of
environment observations.  Refuted: a single observation with
`in_waiting = 1` makes the loop's own exit test (`actuator.py` lines
121-122) fire, terminating it without any operator interrupt. -/
theorem C3_stream_never_exits_counterexample :
    ¬ ∀ env : List StreamObs, streamExits env = false := by
  intro h
  have h1 := h [⟨[], 1⟩]
  have h2 : streamExits [⟨[], 1⟩] = true := rfl
  rw [h1] at h2
  cases h2

theorem runStream_map_inWaiting (env env2 : List StreamObs)
    (h : env.map StreamObs.inWaiting = env2.map StreamObs.inWaiting) :
    runStream env = runStream env2 := by
  induction env generalizing env2 with
  | nil =>
    have h2 : env2 = [] := List.map_eq_nil_iff.mp h.symm
    rw [h2]
  | cons o rest ih =>
    cases env2 with
    | nil => simp at h
    | cons o2 rest2 =>
      simp only [List.map_cons, List.cons.injEq] at h
      obtain ⟨hw, hm⟩ := h
      rw [runStream, runStream]
      have hb : streamBreaks o = streamBreaks o2 := by
        rw [streamBreaks, streamBreaks, hw]
      rw [hb, ih rest2 hm]

theorem streamExits_map_inWaiting (env env2 : List StreamObs)
    (h : env.map StreamObs.inWaiting = env2.map StreamObs.inWaiting) :
    streamExits env = streamExits env2 := by
  induction env generalizing env2 with
  | nil =>
    have h2 : env2 = [] := List.map_eq_nil_iff.mp h.symm
    rw [h2]
  | cons o rest ih =>
    cases env2 with
    | nil => simp at h
    | cons o2 rest2 =>
      simp only [List.map_cons, List.cons.injEq] at h
      obtain ⟨hw, hm⟩ := h
      rw [streamExits, streamExits, List.any_cons, List.any_cons]
      have hb : streamBreaks o = streamBreaks o2 := by
        rw [streamBreaks, streamBreaks, hw]
      have he := ih rest2 hm
      rw [streamExits, streamExits] at he
      rw [hb, he]

/-- C3 amended: the streaming loop does have an automatic exit condition,
and it is exactly the `in_waiting > 0` test: within a horizon of
observations it exits precisely when some observation reports pending
input bytes, and its iteration count depends only on the `in_waiting`
values — the response bytes, successful or failed, never end the loop and
never change its state. -/
theorem C3_stream_exit_characterization (env env2 : List StreamObs)
    (h : env.map StreamObs.inWaiting = env2.map StreamObs.inWaiting) :
    runStream env = runStream env2 ∧ streamExits env = streamExits env2 ∧
      (streamExits env = true ↔ ∃ o ∈ env, 0 < o.inWaiting) := by
  refine ⟨runStream_map_inWaiting env env2 h, streamExits_map_inWaiting env env2 h, ?_⟩
  simp [streamExits, List.any_eq_true, streamBreaks]

/-- Witness for C3: two two-observation horizons with identical
`in_waiting` sequences but different response bytes; the loop runs the
same number of iterations on both and exits because the second
observation has pending bytes. -/
theorem C3_stream_exit_characterization_witness :
    ([⟨[1], 0⟩, ⟨[], 2⟩] : List StreamObs).map StreamObs.inWaiting =
        ([⟨[], 0⟩, ⟨[9, 9], 2⟩] : List StreamObs).map StreamObs.inWaiting ∧
      (runStream [⟨[1], 0⟩, ⟨[], 2⟩] = runStream [⟨[], 0⟩, ⟨[9, 9], 2⟩] ∧
        streamExits [⟨[1], 0⟩, ⟨[], 2⟩] = streamExits [⟨[], 0⟩, ⟨[9, 9], 2⟩] ∧
        (streamExits [⟨[1], 0⟩, ⟨[], 2⟩] = true ↔
          ∃ o ∈ ([⟨[1], 0⟩, ⟨[], 2⟩] : List StreamObs), 0 < o.inWaiting)) :=
  ⟨by decide, C3_stream_exit_characterization _ _ (by decide)⟩

-- C6: absolute target of a move, C9: malformed operator input.

/-- C6: whenever the operator input parses to a number `n` and the session
holds `zero_offset_um = z`, the dispatched move targets exactly `z + n`,
computed from the current offset (`target_um = zero_offset_um +
position_um`, `actuator.py` line 111): the frame entering the streaming
loop is `build_position_command (z + n)`, its position field decodes to
`z + n`, and `zero_offset_um` is left unchanged. -/
theorem C6_move_targets_offset_plus_relative (z n : Int) (s : String) (r : List Nat)
    (hp : pyIntFloat (pyNormalize s) = .ok n)
    (h1 : -(2 ^ 31) ≤ z + n) (h2 : z + n < 2 ^ 31) :
    ∃ f, sessionStep (some z) s r = (some z, .moveStream f) ∧
      build_position_command (z + n) = some f ∧ frame_target f = z + n := by
  obtain ⟨f, hf, -, -, -, hft, -⟩ := build_position_command_some (z + n) h1 h2
  refine ⟨f, ?_, hf, hft⟩
  have hq : pyNormalize s ≠ ['q'] := by
    intro he
    rw [he] at hp
    have : pyIntFloat ['q'] = .valueError := rfl
    rw [this] at hp
    cases hp
  have hz : pyNormalize s ≠ ['z'] := by
    intro he
    rw [he] at hp
    have : pyIntFloat ['z'] = .valueError := rfl
    rw [this] at hp
    cases hp
  simp only [sessionStep]
  rw [if_neg hq, if_neg hz]
  simp only [hp, hf]

set_option maxRecDepth 10000 in
/-- Witness for C6 at the spec's example: with `zero_offset = 500` set by
a zero operation and operator input "100", the move targets absolute
position 600. -/
theorem C6_move_targets_offset_plus_relative_witness :
    (pyIntFloat (pyNormalize "100") = .ok 100 ∧
        -(2 ^ 31) ≤ (500 : Int) + 100 ∧ (500 : Int) + 100 < 2 ^ 31) ∧
      ∃ f, sessionStep (some 500) "100" [] = (some 500, .moveStream f) ∧
        build_position_command (500 + 100) = some f ∧ frame_target f = 500 + 100 :=
  ⟨⟨by decide, by norm_num, by norm_num⟩,
    C6_move_targets_offset_plus_relative 500 100 "100" [] (by decide)
      (by norm_num) (by norm_num)⟩

set_option maxRecDepth 10000 in
/-- C9: evaluation at the failing input "inf": the text is neither a
signed decimal number nor the zero or quit token, yet instead of the
rejected-with-reprompt path the iteration ends in an uncaught
`OverflowError` — Python `int(float('inf'))` raises OverflowError, which
the `except ValueError` handler of `actuator.py` line 107 does not catch
— aborting the session rather than re-prompting with no side effect. -/
theorem C9_inf_input_uncaught_overflow :
    sessionStep (some 0) "inf" [] = (some 0, .uncaughtOverflow) ∧
      LoopEffect.uncaughtOverflow ≠ LoopEffect.reprompt := by
  decide

set_option maxRecDepth 10000 in
/-- Witness for C7 at the spec's example: a frame whose position field
bytes are `00 00 27 10` decodes to position 10000 (with the other fields
recovered as well). -/
theorem C7_field_extraction_witness :
    ((-(2 ^ 31) ≤ (10000 : Int) ∧ (10000 : Int) < 2 ^ 31) ∧
        (3 : Nat) < 2 ^ 16 ∧ ([0xAA, 0xBB] : List Nat).length = 2) ∧
      ((mkResponseFrame 1 10000 (-5) 3 25 4800 0 [0xAA, 0xBB]).drop 2).take 4 =
        [0x00, 0x00, 0x27, 0x10] ∧
      decode_response (some (mkResponseFrame 1 10000 (-5) 3 25 4800 0 [0xAA, 0xBB])) =
        .ok ⟨10000, -5, 3, 25, 4800, 0⟩ :=
  ⟨⟨⟨by norm_num, by norm_num⟩, by norm_num, rfl⟩, by decide,
    C7_field_extraction 1 10000 (-5) 3 25 4800 0 [0xAA, 0xBB]
      (by norm_num) (by norm_num) (by norm_num) (by norm_num) (by norm_num)
      (by norm_num) (by norm_num) (by norm_num) rfl⟩
